import Mathlib

/-!
Shallow embedding of the offline-first task sync engine of this repository:
`src/services/syncService.ts` (the sync pass, the conflict resolver, the
retry/escalation policy) and `src/services/taskService.ts` (the local-record
lookup used by the conflict branch). Machine state is the two SQLite tables
(`tasks`, `sync_queue`) as Lean lists; timestamps are integers (milliseconds
since the epoch, as `Date.getTime()` yields); the network is an oracle giving
each `processBatch` round trip its outcome.
-/

namespace SyncModel

/-- A row of the `tasks` table (the Record of the data model). `sync_status`
holds the literal string stored in the row. -/
structure Task where
  id : String
  title : String
  description : Option String
  completed : Bool
  created_at : Int
  updated_at : Int
  is_deleted : Bool
  sync_status : String
  server_id : Option String
  last_synced_at : Option Int
  deriving DecidableEq

/-- A row of the `sync_queue` table (a Change Log entry), as drained by
`SyncService.sync` into its `allItems` snapshot. -/
structure SyncQueueItem where
  id : String
  task_id : String
  operation : String
  data : String
  created_at : Int
  retry_count : Nat
  error_message : Option String
  deriving DecidableEq

/-- One element of a batch response's `processed_items`. `status` is the raw
string of the response; `resolved_data` is the optional remote snapshot. -/
structure ProcessedItem where
  client_id : String
  server_id : Option String
  status : String
  resolved_data : Option Task
  error : Option String
  deriving DecidableEq

/-- Body of a successful `POST /batch` round trip. -/
structure BatchSyncResponse where
  processed_items : List ProcessedItem
  deriving DecidableEq

/-- Outcome of one `processBatch` call: the HTTP call threw (transport
failure, timeout, non-success response — carrying the thrown message) or a
response body was received. -/
abbrev BatchOutcome := Except String BatchSyncResponse

/-- The two tables the engine touches. -/
structure DB where
  tasks : List Task
  sync_queue : List SyncQueueItem
  deriving DecidableEq

/-- One element of the `errors` array aggregated by `SyncService.sync`. -/
structure SyncErrorEntry where
  task_id : String
  operation : String
  error : String
  timestamp : Int
  deriving DecidableEq

/-- Return value of `SyncService.sync`. -/
structure SyncResult where
  success : Bool
  synced_items : Nat
  failed_items : Nat
  errors : List SyncErrorEntry
  deriving DecidableEq

/-- Running state of the loop in `SyncService.sync`: the database plus the
`synced`, `failed` and `errors` mutable variables. -/
structure PassAcc where
  db : DB
  synced : Nat
  failed : Nat
  errors : List SyncErrorEntry
  deriving DecidableEq

/-- JavaScript `a ?? b` on optionals; also SQL `COALESCE`. -/
def coalesce (a b : Option α) : Option α :=
  match a with
  | some x => some x
  | none => b

/-- JavaScript `s || d` for a present string: falls back on the empty string. -/
def jsOrString (s d : String) : String :=
  if s = "" then d else s

/-- JavaScript `o || d` for an optional string, e.g. `processed.error || 'error'`. -/
def jsOrOpt (o : Option String) (d : String) : String :=
  match o with
  | some s => jsOrString s d
  | none => d

/-- `SyncService.resolveConflict`: last-write-wins on `updated_at`; local wins
when `local.updated_at >= server.updated_at`. -/
def resolveConflict (localTask serverTask : Task) : Task :=
  if localTask.updated_at ≥ serverTask.updated_at then localTask else serverTask

/-- `TaskService.getTask`: `SELECT * FROM tasks WHERE id = ? AND is_deleted = 0`. -/
def getTask (db : DB) (id : String) : Option Task :=
  db.tasks.find? (fun t => t.id == id && !t.is_deleted)

/-- The `'synced' | 'error'` argument of `updateSyncStatus`. -/
inductive StatusArg where
  | synced
  | error
  deriving DecidableEq

/-- `SyncService.updateSyncStatus`: on `synced`, set the row's status,
`COALESCE` the server id with the existing one, stamp `last_synced_at`, then
delete the record's queue entries; on `error`, only set the status. -/
def updateSyncStatus (now : Int) (db : DB) (taskId : String) (status : StatusArg)
    (serverId : Option String) : DB :=
  match status with
  | .synced =>
    { tasks := db.tasks.map (fun t =>
        if t.id == taskId then
          { t with sync_status := "synced", server_id := coalesce serverId t.server_id,
                   last_synced_at := some now }
        else t),
      sync_queue := db.sync_queue.filter (fun e => !(e.task_id == taskId)) }
  | .error =>
    { tasks := db.tasks.map (fun t =>
        if t.id == taskId then { t with sync_status := "error" } else t),
      sync_queue := db.sync_queue }

/-- `SyncService.handleSyncError`: set the queue row's `retry_count` to the
drained snapshot's count plus one, store the message, and once the new count
reaches 3 mark the owning record `error` (the row itself stays queued). -/
def handleSyncError (now : Int) (db : DB) (item : SyncQueueItem) (msg : String) : DB :=
  let newRetry := item.retry_count + 1
  let db1 : DB :=
    { db with sync_queue := db.sync_queue.map (fun e =>
        if e.id == item.id then { e with retry_count := newRetry, error_message := some msg }
        else e) }
  if 3 ≤ newRetry then updateSyncStatus now db1 item.task_id .error none else db1

/-- The inline `UPDATE tasks ... WHERE id = ?` of the conflict branch: write
the winner's payload fields, stamp `updated_at` with the current time, set
`sync_status='synced'`, overwrite `server_id` with the given value, stamp
`last_synced_at`; then delete the record's queue entries. -/
def applyConflictWinner (now : Int) (db : DB) (winner : Task) (serverId : Option String)
    (localId : String) : DB :=
  { tasks := db.tasks.map (fun t =>
      if t.id == localId then
        { t with title := winner.title, description := winner.description,
                 completed := winner.completed, updated_at := now,
                 sync_status := "synced", server_id := serverId,
                 last_synced_at := some now }
      else t),
    sync_queue := db.sync_queue.filter (fun e => !(e.task_id == localId)) }

/-- One iteration of the `for (const processed of response.processed_items)`
loop of `SyncService.sync`. -/
def processItem (now : Int) (batch : List SyncQueueItem) (acc : PassAcc)
    (processed : ProcessedItem) : PassAcc :=
  match batch.find? (fun b => b.task_id == processed.client_id) with
  | none => acc
  | some item =>
    if processed.status = "success" then
      { acc with
          db := updateSyncStatus now acc.db item.task_id .synced processed.server_id,
          synced := acc.synced + 1 }
    else if processed.status = "conflict" then
      match getTask acc.db item.task_id, processed.resolved_data with
      | some localT, some serverTask =>
        { acc with
            db := applyConflictWinner now acc.db (resolveConflict localT serverTask)
                    (coalesce serverTask.server_id processed.server_id) localT.id,
            synced := acc.synced + 1 }
      | _, _ =>
        { acc with
            db := handleSyncError now acc.db item "Conflict without resolvable data",
            failed := acc.failed + 1,
            errors := acc.errors ++ [⟨item.task_id, item.operation, "Conflict", now⟩] }
    else
      { acc with
          db := handleSyncError now acc.db item (jsOrOpt processed.error "Sync error"),
          failed := acc.failed + 1,
          errors := acc.errors ++
            [⟨item.task_id, item.operation, jsOrOpt processed.error "error", now⟩] }

/-- Body of the `catch` block's `for (const item of batch)` loop: mark one
entry failed with the thrown error's message. -/
def failStep (now : Int) (msg : String) (a : PassAcc) (item : SyncQueueItem) : PassAcc :=
  { a with
      db := handleSyncError now a.db item msg,
      failed := a.failed + 1,
      errors := a.errors ++ [⟨item.task_id, item.operation, jsOrString msg "error", now⟩] }

/-- The `catch` block of `SyncService.sync`: every entry of a batch whose round
trip failed as a whole is marked failed with the thrown error's message. -/
def processFailedBatch (now : Int) (msg : String) (batch : List SyncQueueItem)
    (acc : PassAcc) : PassAcc :=
  batch.foldl (failStep now msg) acc

/-- Dispatch of one batch inside the loop: a transport failure hits the
`catch`; a received response is interpreted item by item. -/
def processBatchOutcome (now : Int) (batch : List SyncQueueItem) (outcome : BatchOutcome)
    (acc : PassAcc) : PassAcc :=
  match outcome with
  | .ok resp => resp.processed_items.foldl (processItem now batch) acc
  | .error msg => processFailedBatch now msg batch acc

/-- The `for (let i = 0; i < allItems.length; i += batchSize)` slicing: split a
list into consecutive chunks; for a positive `B` these are the slices
`l.slice(i, i + B)` for `i = 0, B, 2B, …`. -/
def chunkList (B : Nat) : List α → List (List α)
  | [] => []
  | x :: xs => (x :: xs.take (B - 1)) :: chunkList B (xs.drop (B - 1))
  termination_by l => l.length
  decreasing_by simp [List.length_drop]; omega

/-- Key order of `SELECT * FROM sync_queue ORDER BY created_at`. -/
def queueLE (a b : SyncQueueItem) : Prop :=
  a.created_at ≤ b.created_at

instance : DecidableRel queueLE :=
  fun a b => inferInstanceAs (Decidable (a.created_at ≤ b.created_at))

instance : IsTotal SyncQueueItem queueLE :=
  ⟨fun a b => le_total a.created_at b.created_at⟩

instance : IsTrans SyncQueueItem queueLE :=
  ⟨fun _ _ _ hab hbc => le_trans hab hbc⟩

/-- The drain of `SyncService.sync`: the whole `sync_queue` table ordered by
`created_at` (a stable sort). -/
def drainQueue (q : List SyncQueueItem) : List SyncQueueItem :=
  q.insertionSort queueLE

/-- The batch loop of `SyncService.sync`, batch `i` receiving the outcome of
the `i`-th round trip. -/
def runBatches (now : Int) (oracle : Nat → BatchOutcome) (i : Nat) :
    List (List SyncQueueItem) → PassAcc → PassAcc
  | [], acc => acc
  | c :: cs, acc => runBatches now oracle (i + 1) cs (processBatchOutcome now c (oracle i) acc)

/-- `SyncService.sync`: drain the queue ordered by `created_at`, process it in
chunks of `B` (the configured batch size), aggregate counts and errors, and
report `success` exactly when nothing failed. `oracle i` is the outcome of the
`i`-th `processBatch` call. -/
def sync (now : Int) (B : Nat) (oracle : Nat → BatchOutcome) (db : DB) :
    SyncResult × DB :=
  let acc := runBatches now oracle 0 (chunkList B (drainQueue db.sync_queue)) ⟨db, 0, 0, []⟩
  (⟨acc.failed == 0, acc.synced, acc.failed, acc.errors⟩, acc.db)

/-- Number of `processBatch` round trips one pass performs: one per chunk. -/
def syncExchangeCount (B : Nat) (db : DB) : Nat :=
  (chunkList B (drainQueue db.sync_queue)).length

/-! Helper lemmas about the chunking of the drained queue. -/

theorem chunkList_flatten (B : Nat) (l : List α) : (chunkList B l).flatten = l := by
  induction l using chunkList.induct B with
  | case1 => simp [chunkList]
  | case2 x xs ih => simp [chunkList, ih]

theorem chunkList_length_le (B : Nat) (hB : 0 < B) (l : List α) :
    ∀ c ∈ chunkList B l, c.length ≤ B := by
  induction l using chunkList.induct B with
  | case1 => intro c hc; simp [chunkList] at hc
  | case2 x xs ih =>
      intro c hc
      simp only [chunkList, List.mem_cons] at hc
      rcases hc with rfl | hc
      · simp only [List.length_cons, List.length_take]
        omega
      · exact ih c hc

theorem chunkList_count (B : Nat) (hB : 0 < B) (l : List α) :
    (chunkList B l).length = (l.length + B - 1) / B := by
  induction l using chunkList.induct B with
  | case1 =>
      simp only [chunkList, List.length_nil]
      rw [Nat.div_eq_of_lt (by omega)]
  | case2 x xs ih =>
      simp only [chunkList, List.length_cons, ih, List.length_drop]
      have h2 : xs.length + 1 + B - 1 = xs.length + B := by omega
      rw [h2, Nat.add_div_right _ hB]
      rcases le_or_lt xs.length (B - 1) with h | h
      · have e1 : xs.length - (B - 1) = 0 := by omega
        rw [e1]
        rw [Nat.div_eq_of_lt (by omega), Nat.div_eq_of_lt (by omega)]
      · have e1 : xs.length - (B - 1) + B - 1 = xs.length := by omega
        rw [e1]

/-! Reduction lemmas for the four arms of the per-item loop. -/


theorem processItem_success_reduce (now : Int) (batch : List SyncQueueItem)
    (acc : PassAcc) (p : ProcessedItem) (item : SyncQueueItem)
    (hfind : batch.find? (fun b => b.task_id == p.client_id) = some item)
    (hst : p.status = "success") :
    processItem now batch acc p =
      { acc with
          db := updateSyncStatus now acc.db item.task_id .synced p.server_id,
          synced := acc.synced + 1 } := by
  unfold processItem
  rw [hfind, hst]
  simp

theorem processItem_conflictFail_reduce (now : Int) (batch : List SyncQueueItem)
    (acc : PassAcc) (p : ProcessedItem) (item : SyncQueueItem)
    (hfind : batch.find? (fun b => b.task_id == p.client_id) = some item)
    (hst : p.status = "conflict")
    (hmiss : getTask acc.db item.task_id = none ∨ p.resolved_data = none) :
    processItem now batch acc p =
      { acc with
          db := handleSyncError now acc.db item "Conflict without resolvable data",
          failed := acc.failed + 1,
          errors := acc.errors ++ [⟨item.task_id, item.operation, "Conflict", now⟩] } := by
  unfold processItem
  rw [hfind, hst]
  rcases hmiss with h | h
  · cases hr : p.resolved_data <;> simp [h, hr]
  · cases hg : getTask acc.db item.task_id <;> simp [h, hg]

theorem processItem_conflictResolve_reduce (now : Int) (batch : List SyncQueueItem)
    (acc : PassAcc) (p : ProcessedItem) (item : SyncQueueItem)
    (localT serverTask : Task)
    (hfind : batch.find? (fun b => b.task_id == p.client_id) = some item)
    (hst : p.status = "conflict")
    (hlocal : getTask acc.db item.task_id = some localT)
    (hrd : p.resolved_data = some serverTask) :
    processItem now batch acc p =
      { acc with
          db := applyConflictWinner now acc.db (resolveConflict localT serverTask)
                  (coalesce serverTask.server_id p.server_id) localT.id,
          synced := acc.synced + 1 } := by
  unfold processItem
  rw [hfind, hst]
  simp [hlocal, hrd]

theorem processItem_error_reduce (now : Int) (batch : List SyncQueueItem)
    (acc : PassAcc) (p : ProcessedItem) (item : SyncQueueItem)
    (hfind : batch.find? (fun b => b.task_id == p.client_id) = some item)
    (hst : ¬ p.status = "success") (hst2 : ¬ p.status = "conflict") :
    processItem now batch acc p =
      { acc with
          db := handleSyncError now acc.db item (jsOrOpt p.error "Sync error"),
          failed := acc.failed + 1,
          errors := acc.errors ++
            [⟨item.task_id, item.operation, jsOrOpt p.error "error", now⟩] } := by
  unfold processItem
  rw [hfind]
  simp [hst, hst2]

theorem processItem_unmatched_reduce (now : Int) (batch : List SyncQueueItem)
    (acc : PassAcc) (p : ProcessedItem)
    (h : ∀ b ∈ batch, ¬ b.task_id = p.client_id) :
    processItem now batch acc p = acc := by
  have hf : batch.find? (fun b => b.task_id == p.client_id) = none :=
    List.find?_eq_none.mpr (fun b hb => by simp [h b hb])
  unfold processItem
  rw [hf]



theorem updateSyncStatus_error_queue (now : Int) (db : DB) (taskId : String) :
    (updateSyncStatus now db taskId .error none).sync_queue = db.sync_queue := rfl

theorem updateSyncStatus_error_tasks (now : Int) (db : DB) (taskId : String) :
    (updateSyncStatus now db taskId .error none).tasks =
      db.tasks.map (fun t => if t.id == taskId then { t with sync_status := "error" } else t) :=
  rfl

/-- Whichever branch `handleSyncError` takes, the queue is the original with
the entry's row rewritten (escalation touches only `tasks`). -/
theorem handleSyncError_queue (now : Int) (db : DB) (item : SyncQueueItem) (msg : String) :
    (handleSyncError now db item msg).sync_queue = db.sync_queue.map (fun e =>
      if e.id == item.id then
        { e with retry_count := item.retry_count + 1, error_message := some msg }
      else e) := by
  simp only [handleSyncError]
  split
  · rw [updateSyncStatus_error_queue]
  · rfl

/-- `handleSyncError` escalates the owning record to `error` exactly at the
threshold, and otherwise leaves `tasks` alone. -/
theorem handleSyncError_tasks (now : Int) (db : DB) (item : SyncQueueItem) (msg : String) :
    (handleSyncError now db item msg).tasks =
      if 3 ≤ item.retry_count + 1 then
        db.tasks.map (fun t =>
          if t.id == item.task_id then { t with sync_status := "error" } else t)
      else db.tasks := by
  simp only [handleSyncError]
  split
  next _ => rw [updateSyncStatus_error_tasks]
  next _ => rfl

/-- All fields of a task row except `sync_status`. -/
def taskPayload (t : Task) : String × String × Option String × Bool × Int × Int × Bool × Option String × Option Int :=
  (t.id, t.title, t.description, t.completed, t.created_at, t.updated_at, t.is_deleted,
    t.server_id, t.last_synced_at)

/-- `handleSyncError` never writes any task field other than `sync_status`. -/
theorem handleSyncError_tasks_payload (now : Int) (db : DB) (item : SyncQueueItem)
    (msg : String) :
    (handleSyncError now db item msg).tasks.map taskPayload = db.tasks.map taskPayload := by
  rw [handleSyncError_tasks]
  split
  · rw [List.map_map]
    apply List.map_congr_left
    intro t _
    simp only [Function.comp_apply]
    split <;> rfl
  · rfl

/-- Counts and error reporting of the `catch` block: one failure and one error
per entry, nothing counted synced. -/
theorem processFailedBatch_counts (now : Int) (msg : String) (batch : List SyncQueueItem)
    (acc : PassAcc) :
    (processFailedBatch now msg batch acc).failed = acc.failed + batch.length ∧
    (processFailedBatch now msg batch acc).synced = acc.synced ∧
    (processFailedBatch now msg batch acc).errors = acc.errors ++ batch.map (fun item =>
      ⟨item.task_id, item.operation, jsOrString msg "error", now⟩) := by
  induction batch generalizing acc with
  | nil => simp [processFailedBatch]
  | cons item rest ih =>
      obtain ⟨h1, h2, h3⟩ := ih (failStep now msg acc item)
      simp only [processFailedBatch, List.foldl_cons] at h1 h2 h3 ⊢
      refine ⟨?_, ?_, ?_⟩
      · rw [h1]; simp [failStep]; omega
      · rw [h2]; simp [failStep]
      · rw [h3]; simp [failStep, List.append_assoc]

/-- A queue row whose id none of the remaining entries carries survives the
`catch` loop untouched. -/
theorem processFailedBatch_queue_preserve (now : Int) (msg : String)
    (rest : List SyncQueueItem) (acc : PassAcc) (e : SyncQueueItem)
    (he : e ∈ acc.db.sync_queue) (hid : ∀ item ∈ rest, ¬ e.id = item.id) :
    e ∈ (processFailedBatch now msg rest acc).db.sync_queue := by
  induction rest generalizing acc with
  | nil => simpa [processFailedBatch]
  | cons item rest ih =>
      simp only [processFailedBatch, List.foldl_cons] at ih ⊢
      apply ih (failStep now msg acc item)
      · simp only [failStep, handleSyncError_queue]
        have hne : (e.id == item.id) = false := by
          simp [hid item (List.mem_cons_self _ _)]
        have : (fun x : SyncQueueItem =>
            if x.id == item.id then
              { x with retry_count := item.retry_count + 1, error_message := some msg }
            else x) e = e := by simp [hne]
        rw [← this]
        exact List.mem_map_of_mem _ he
      · exact fun i hi => hid i (List.mem_cons_of_mem _ hi)


/-- Every entry of a batch whose round trip failed gets its own queue row
rewritten: snapshot retry count plus one, and the transport message stored. -/
theorem processFailedBatch_queue_update (now : Int) (msg : String)
    (batch : List SyncQueueItem) (acc : PassAcc)
    (hnd : (batch.map (fun b => b.id)).Nodup) :
    ∀ item ∈ batch, ∀ e ∈ acc.db.sync_queue, e.id = item.id →
      { e with retry_count := item.retry_count + 1, error_message := some msg } ∈
        (processFailedBatch now msg batch acc).db.sync_queue := by
  induction batch generalizing acc with
  | nil => intro item h; cases h
  | cons b rest ih =>
      intro item hitem e he heid
      simp only [List.map_cons, List.nodup_cons] at hnd
      rcases List.mem_cons.mp hitem with rfl | hitem
      · simp only [processFailedBatch, List.foldl_cons]
        apply processFailedBatch_queue_preserve
        · simp only [failStep, handleSyncError_queue]
          have hupd : (fun x : SyncQueueItem =>
              if x.id == item.id then
                { x with retry_count := item.retry_count + 1, error_message := some msg }
              else x) e =
              { e with retry_count := item.retry_count + 1, error_message := some msg } := by
            simp [heid]
          rw [← hupd]
          exact List.mem_map_of_mem _ he
        · intro i hi hcontra
          exact hnd.1 (by
            rw [heid] at hcontra
            rw [hcontra]
            exact List.mem_map_of_mem _ hi)
      · simp only [processFailedBatch, List.foldl_cons]
        apply ih (failStep now msg acc b) hnd.2 item hitem _ ?_ heid
        simp only [failStep, handleSyncError_queue]
        have hne : (e.id == b.id) = false := by
          have : ¬ item.id = b.id := fun hcon => hnd.1 (hcon ▸ List.mem_map_of_mem _ hitem)
          simp [heid, this]
        have hupd : (fun x : SyncQueueItem =>
            if x.id == b.id then
              { x with retry_count := b.retry_count + 1, error_message := some msg }
            else x) e = e := by
          simp [hne]
        rw [← hupd]
        exact List.mem_map_of_mem _ he

/-- One step of the item loop adds the same amount to `failed` as it appends
to `errors`. -/
theorem processItem_delta (now : Int) (batch : List SyncQueueItem) (acc : PassAcc)
    (p : ProcessedItem) :
    (processItem now batch acc p).failed + acc.errors.length =
      (processItem now batch acc p).errors.length + acc.failed := by
  unfold processItem
  split
  · omega
  split
  · dsimp only
    omega
  · split
    · split
      · dsimp only
        omega
      · dsimp only
        simp only [List.length_append, List.length_cons, List.length_nil]
        omega
    · dsimp only
      simp only [List.length_append, List.length_cons, List.length_nil]
      omega

theorem foldl_processItem_delta (now : Int) (batch : List SyncQueueItem)
    (ps : List ProcessedItem) (acc : PassAcc) :
    ((ps.foldl (processItem now batch) acc).failed + acc.errors.length =
      (ps.foldl (processItem now batch) acc).errors.length + acc.failed) := by
  induction ps generalizing acc with
  | nil => simp only [List.foldl_nil]; omega
  | cons p ps ih =>
      simp only [List.foldl_cons]
      have h1 := processItem_delta now batch acc p
      have h2 := ih (processItem now batch acc p)
      omega

theorem processBatchOutcome_delta (now : Int) (batch : List SyncQueueItem)
    (outcome : BatchOutcome) (acc : PassAcc) :
    (processBatchOutcome now batch outcome acc).failed + acc.errors.length =
      (processBatchOutcome now batch outcome acc).errors.length + acc.failed := by
  cases outcome with
  | ok resp => exact foldl_processItem_delta now batch resp.processed_items acc
  | error msg =>
      obtain ⟨h1, _, h3⟩ := processFailedBatch_counts now msg batch acc
      simp only [processBatchOutcome, h1, h3, List.length_append, List.length_map]
      omega

theorem runBatches_delta (now : Int) (oracle : Nat → BatchOutcome) (i : Nat)
    (chunks : List (List SyncQueueItem)) (acc : PassAcc) :
    (runBatches now oracle i chunks acc).failed + acc.errors.length =
      (runBatches now oracle i chunks acc).errors.length + acc.failed := by
  induction chunks generalizing i acc with
  | nil => simp only [runBatches]; omega
  | cons c cs ih =>
      simp only [runBatches]
      have h1 := processBatchOutcome_delta now c (oracle i) acc
      have h2 := ih (i + 1) (processBatchOutcome now c (oracle i) acc)
      omega

/-! Claim theorems. -/

/-- Claim C1: `resolveConflict` is last-write-wins — it returns the local
record when `local.updated_at >= remote.updated_at` (ties favor local) and
the remote record otherwise. It is a pure function of exactly its two
arguments in this embedding, so applying it twice to the same pair trivially
yields the same winner. -/
theorem resolveConflict_lastWriteWins (l r : Task) :
    (l.updated_at ≥ r.updated_at → resolveConflict l r = l) ∧
    (¬ l.updated_at ≥ r.updated_at → resolveConflict l r = r) := by
  unfold resolveConflict
  refine ⟨fun h => ?_, fun h => ?_⟩
  · rw [if_pos h]
  · rw [if_neg h]

theorem resolveConflict_lastWriteWins_witness :
    resolveConflict ⟨"a", "local", none, false, 0, 5, false, "pending", none, none⟩
        ⟨"a", "remote", none, true, 0, 5, false, "synced", some "s", none⟩ =
      ⟨"a", "local", none, false, 0, 5, false, "pending", none, none⟩ :=
  (resolveConflict_lastWriteWins
    ⟨"a", "local", none, false, 0, 5, false, "pending", none, none⟩
    ⟨"a", "remote", none, true, 0, 5, false, "synced", some "s", none⟩).1 (by decide)

/-- Claim C10: a processed item whose `client_id` matches no entry of the
dispatched batch is skipped entirely — the loop iteration returns the
accumulator unchanged, so neither table, neither counter, nor the errors
list moves. -/
theorem sync_unmatched_item_skipped (now : Int) (batch : List SyncQueueItem)
    (acc : PassAcc) (p : ProcessedItem)
    (h : ∀ b ∈ batch, ¬ b.task_id = p.client_id) :
    processItem now batch acc p = acc :=
  processItem_unmatched_reduce now batch acc p h

theorem sync_unmatched_item_skipped_witness :
    processItem 3 [⟨"q", "tA", "create", "", 0, 0, none⟩] ⟨⟨[], []⟩, 0, 0, []⟩
      ⟨"tB", none, "success", none, none⟩ = ⟨⟨[], []⟩, 0, 0, []⟩ :=
  sync_unmatched_item_skipped 3 [⟨"q", "tA", "create", "", 0, 0, none⟩]
    ⟨⟨[], []⟩, 0, 0, []⟩ ⟨"tB", none, "success", none, none⟩ (by decide)

/-- Claim C6: a pass over a queue of `N` entries with configured batch size
`B > 0` performs exactly `ceil(N/B)` sequential round trips, none of the
dispatched chunks exceeds `B` entries, their concatenation is exactly the
drained list, and the drained list is the queue reordered by `created_at`. -/
theorem sync_batching_shape (B : Nat) (db : DB) (hB : 0 < B) :
    syncExchangeCount B db = (db.sync_queue.length + B - 1) / B ∧
    (∀ c ∈ chunkList B (drainQueue db.sync_queue), c.length ≤ B) ∧
    (chunkList B (drainQueue db.sync_queue)).flatten = drainQueue db.sync_queue ∧
    List.Sorted queueLE (drainQueue db.sync_queue) ∧
    (drainQueue db.sync_queue).Perm db.sync_queue := by
  refine ⟨?_, chunkList_length_le B hB _, chunkList_flatten B _,
    List.sorted_insertionSort queueLE _, List.perm_insertionSort queueLE _⟩
  unfold syncExchangeCount drainQueue
  rw [chunkList_count B hB, (List.perm_insertionSort queueLE db.sync_queue).length_eq]

def c6DB : DB := ⟨[], [⟨"q1", "t1", "create", "", 30, 0, none⟩,
  ⟨"q2", "t2", "update", "", 10, 0, none⟩, ⟨"q3", "t3", "delete", "", 20, 0, none⟩]⟩

theorem sync_batching_shape_witness :
    syncExchangeCount 2 c6DB = (c6DB.sync_queue.length + 2 - 1) / 2 ∧
    (∀ c ∈ chunkList 2 (drainQueue c6DB.sync_queue), c.length ≤ 2) ∧
    (chunkList 2 (drainQueue c6DB.sync_queue)).flatten = drainQueue c6DB.sync_queue ∧
    List.Sorted queueLE (drainQueue c6DB.sync_queue) ∧
    (drainQueue c6DB.sync_queue).Perm c6DB.sync_queue :=
  sync_batching_shape 2 c6DB (by decide)

/-- Claim C7: the pass is a total function of the queue state and the batch
outcomes — per-item failures are only reported: the returned `success` flag
is true exactly when `failed_items` is zero, `failed_items` always equals the
number of reported errors, and on an empty Change Log the pass returns
`success = true` with zero counts, an empty error list and an untouched
database. -/
theorem sync_reports_failures (now : Int) (B : Nat) (oracle : Nat → BatchOutcome)
    (db : DB) :
    ((sync now B oracle db).1.success = true ↔ (sync now B oracle db).1.failed_items = 0) ∧
    (sync now B oracle db).1.failed_items = (sync now B oracle db).1.errors.length ∧
    (db.sync_queue = [] → sync now B oracle db = (⟨true, 0, 0, []⟩, db)) := by
  refine ⟨?_, ?_, ?_⟩
  · simp [sync]
  · have h := runBatches_delta now oracle 0 (chunkList B (drainQueue db.sync_queue))
      ⟨db, 0, 0, []⟩
    simp only [sync]
    dsimp only at h ⊢
    simp only [List.length_nil] at h
    omega
  · intro hq
    obtain ⟨tasks, queue⟩ := db
    simp only at hq
    subst hq
    simp [sync, drainQueue, chunkList, runBatches, List.insertionSort]

theorem sync_reports_failures_witness :
    sync 7 50 (fun _ => Except.error "offline") ⟨[], []⟩ = (⟨true, 0, 0, []⟩, ⟨[], []⟩) :=
  (sync_reports_failures 7 50 (fun _ => Except.error "offline") ⟨[], []⟩).2.2 rfl

/-- Claim C2: processing a per-item `success` outcome that carries a remote id
writes `server_id` to that id on the owning record, sets `sync_status` to
`synced`, stamps `last_synced_at`, removes every Change Log entry of that
record, and increments the synced count by one, leaving the failure count and
the error list untouched. Stated on one iteration of the per-item loop, which
is what the cited code performs for that outcome. -/
theorem sync_success_outcome_effects (now : Int) (batch : List SyncQueueItem)
    (acc : PassAcc) (p : ProcessedItem) (item : SyncQueueItem) (rid : String)
    (hfind : batch.find? (fun b => b.task_id == p.client_id) = some item)
    (hst : p.status = "success") (hsid : p.server_id = some rid) :
    (processItem now batch acc p).synced = acc.synced + 1 ∧
    (processItem now batch acc p).failed = acc.failed ∧
    (processItem now batch acc p).errors = acc.errors ∧
    (processItem now batch acc p).db.tasks = acc.db.tasks.map (fun t =>
      if t.id == item.task_id then
        { t with sync_status := "synced", server_id := some rid, last_synced_at := some now }
      else t) ∧
    (∀ e ∈ (processItem now batch acc p).db.sync_queue, ¬ e.task_id = item.task_id) ∧
    (∀ t ∈ acc.db.tasks, t.id = item.task_id →
      { t with sync_status := "synced", server_id := some rid, last_synced_at := some now } ∈
        (processItem now batch acc p).db.tasks) := by
  rw [processItem_success_reduce now batch acc p item hfind hst]
  refine ⟨rfl, rfl, rfl, ?_, ?_, ?_⟩
  · dsimp only
    simp only [updateSyncStatus, hsid, coalesce]
  · intro e he
    dsimp only at he
    simp only [updateSyncStatus] at he
    rw [List.mem_filter] at he
    simpa using he.2
  · intro t ht hid
    dsimp only
    simp only [updateSyncStatus, hsid, coalesce]
    have hm := List.mem_map_of_mem (fun t : Task =>
      if t.id == item.task_id then
        { t with sync_status := "synced", server_id := some rid, last_synced_at := some now }
      else t) ht
    simpa [hid] using hm

def c2Task : Task := ⟨"t1", "Buy milk", none, false, 0, 5, false, "pending", none, none⟩
def c2Item : SyncQueueItem := ⟨"q1", "t1", "create", "", 0, 0, none⟩
def c2P : ProcessedItem := ⟨"t1", some "srv_1", "success", none, none⟩
def c2Acc : PassAcc := ⟨⟨[c2Task], [c2Item]⟩, 0, 0, []⟩

theorem sync_success_outcome_effects_witness :
    (processItem 100 [c2Item] c2Acc c2P).synced = c2Acc.synced + 1 ∧
    (processItem 100 [c2Item] c2Acc c2P).failed = c2Acc.failed ∧
    (processItem 100 [c2Item] c2Acc c2P).errors = c2Acc.errors ∧
    (processItem 100 [c2Item] c2Acc c2P).db.tasks = c2Acc.db.tasks.map (fun t =>
      if t.id == c2Item.task_id then
        { t with sync_status := "synced", server_id := some "srv_1",
                 last_synced_at := some 100 }
      else t) ∧
    (∀ e ∈ (processItem 100 [c2Item] c2Acc c2P).db.sync_queue,
      ¬ e.task_id = c2Item.task_id) ∧
    (∀ t ∈ c2Acc.db.tasks, t.id = c2Item.task_id →
      { t with sync_status := "synced", server_id := some "srv_1",
               last_synced_at := some 100 } ∈
        (processItem 100 [c2Item] c2Acc c2P).db.tasks) :=
  sync_success_outcome_effects 100 [c2Item] c2Acc c2P c2Item "srv_1"
    (by decide) (by decide) (by decide)

/-- Claim C3: a per-item failure rewrites the failing entry's queue row with
`retry_count` incremented by one and the message stored, removes nothing from
the Change Log; once the incremented count reaches the threshold 3, the
owning record's `sync_status` becomes `error`, and the rewritten entry is
still returned by the drain of any later pass over the resulting queue. -/
theorem sync_failure_retry_escalation (now : Int) (db : DB) (item : SyncQueueItem)
    (msg : String) (hrow : item ∈ db.sync_queue) :
    (handleSyncError now db item msg).sync_queue.length = db.sync_queue.length ∧
    { item with retry_count := item.retry_count + 1, error_message := some msg } ∈
      (handleSyncError now db item msg).sync_queue ∧
    { item with retry_count := item.retry_count + 1, error_message := some msg } ∈
      drainQueue (handleSyncError now db item msg).sync_queue ∧
    (3 ≤ item.retry_count + 1 → ∀ t ∈ db.tasks, t.id = item.task_id →
      { t with sync_status := "error" } ∈ (handleSyncError now db item msg).tasks) := by
  have hq := handleSyncError_queue now db item msg
  have hmem : { item with retry_count := item.retry_count + 1, error_message := some msg } ∈
      (handleSyncError now db item msg).sync_queue := by
    rw [hq]
    have hupd : (fun e : SyncQueueItem => if e.id == item.id then
        { e with retry_count := item.retry_count + 1, error_message := some msg }
        else e) item =
        { item with retry_count := item.retry_count + 1, error_message := some msg } := by
      simp
    rw [← hupd]
    exact List.mem_map_of_mem _ hrow
  refine ⟨?_, hmem, ?_, ?_⟩
  · rw [hq, List.length_map]
  · unfold drainQueue
    exact ((List.perm_insertionSort queueLE _).mem_iff).mpr hmem
  · intro h3 t ht hid
    rw [handleSyncError_tasks, if_pos h3]
    have hm := List.mem_map_of_mem (fun t : Task =>
      if t.id == item.task_id then { t with sync_status := "error" } else t) ht
    simpa [hid] using hm

def c3DB : DB := ⟨[⟨"t3", "T", none, false, 0, 0, false, "pending", none, none⟩],
  [⟨"q3", "t3", "update", "", 0, 2, some "old"⟩]⟩
def c3Item : SyncQueueItem := ⟨"q3", "t3", "update", "", 0, 2, some "old"⟩

theorem sync_failure_retry_escalation_witness :
    (handleSyncError 9 c3DB c3Item "boom").sync_queue.length = c3DB.sync_queue.length ∧
    { c3Item with retry_count := c3Item.retry_count + 1, error_message := some "boom" } ∈
      (handleSyncError 9 c3DB c3Item "boom").sync_queue ∧
    { c3Item with retry_count := c3Item.retry_count + 1, error_message := some "boom" } ∈
      drainQueue (handleSyncError 9 c3DB c3Item "boom").sync_queue ∧
    (3 ≤ c3Item.retry_count + 1 → ∀ t ∈ c3DB.tasks, t.id = c3Item.task_id →
      { t with sync_status := "error" } ∈ (handleSyncError 9 c3DB c3Item "boom").tasks) :=
  sync_failure_retry_escalation 9 c3DB c3Item "boom" (by decide)

/-- Claim C4: when a batch's round trip fails as a whole, every entry of the
batch is failed individually — the failure count grows by the batch length,
one error carrying the transport reason is recorded per entry, nothing is
counted synced, and (for the distinct row ids a real queue has) each entry's
queue row gets `retry_count` incremented and the transport message stored. -/
theorem sync_transport_failure_batchwide (now : Int) (msg : String)
    (batch : List SyncQueueItem) (acc : PassAcc)
    (hnd : (batch.map (fun b => b.id)).Nodup) :
    (processBatchOutcome now batch (Except.error msg) acc).failed =
      acc.failed + batch.length ∧
    (processBatchOutcome now batch (Except.error msg) acc).synced = acc.synced ∧
    (processBatchOutcome now batch (Except.error msg) acc).errors = acc.errors ++
      batch.map (fun item => ⟨item.task_id, item.operation, jsOrString msg "error", now⟩) ∧
    (∀ item ∈ batch, ∀ e ∈ acc.db.sync_queue, e.id = item.id →
      { e with retry_count := item.retry_count + 1, error_message := some msg } ∈
        (processBatchOutcome now batch (Except.error msg) acc).db.sync_queue) := by
  obtain ⟨h1, h2, h3⟩ := processFailedBatch_counts now msg batch acc
  exact ⟨h1, h2, h3, processFailedBatch_queue_update now msg batch acc hnd⟩

def c4Items : List SyncQueueItem :=
  [⟨"qa", "ta", "create", "", 0, 0, none⟩, ⟨"qb", "tb", "update", "", 1, 1, none⟩]
def c4Acc : PassAcc := ⟨⟨[], c4Items⟩, 0, 1, []⟩

theorem sync_transport_failure_batchwide_witness :
    (processBatchOutcome 4 c4Items (Except.error "timeout") c4Acc).failed =
      c4Acc.failed + c4Items.length ∧
    (processBatchOutcome 4 c4Items (Except.error "timeout") c4Acc).synced = c4Acc.synced ∧
    (processBatchOutcome 4 c4Items (Except.error "timeout") c4Acc).errors = c4Acc.errors ++
      c4Items.map (fun item =>
        ⟨item.task_id, item.operation, jsOrString "timeout" "error", 4⟩) ∧
    (∀ item ∈ c4Items, ∀ e ∈ c4Acc.db.sync_queue, e.id = item.id →
      { e with retry_count := item.retry_count + 1, error_message := some "timeout" } ∈
        (processBatchOutcome 4 c4Items (Except.error "timeout") c4Acc).db.sync_queue) :=
  sync_transport_failure_batchwide 4 "timeout" c4Items c4Acc (by decide)

def c5Local : Task := ⟨"t5", "old", none, false, 0, 10, false, "pending", some "keep", none⟩
def c5Snap : Task := ⟨"t5", "new title", some "d", true, 0, 20, false, "synced", none, none⟩
def c5P : ProcessedItem := ⟨"t5", some "srv9", "conflict", some c5Snap, none⟩
def c5Item : SyncQueueItem := ⟨"q5", "t5", "update", "", 0, 0, none⟩
def c5Acc : PassAcc := ⟨⟨[c5Local], [c5Item]⟩, 0, 0, []⟩

/-- Claim C5 counterexample: a conflict outcome whose `resolved_data` snapshot
is newer than the local record but carries no `server_id` of its own. The
claim as stated would require the record's `server_id` to equal the
snapshot's (`none`); the code instead falls back to the processed item's
`server_id` and writes `some "srv9"`. -/
theorem conflict_server_id_fallback_cex :
    c5P.status = "conflict" ∧
    c5P.resolved_data = some c5Snap ∧
    getTask c5Acc.db c5Item.task_id = some c5Local ∧
    c5Local.updated_at < c5Snap.updated_at ∧
    c5Snap.server_id = none ∧
    (processItem 100 [c5Item] c5Acc c5P).db.tasks.map (fun t => t.server_id) =
      [some "srv9"] := by
  decide

/-- Claim C5 (amended): for a conflict outcome whose remote snapshot is newer
than the matching local record, the pass writes the snapshot's payload fields
(title, description, completed) into the record, sets `sync_status` to
`synced`, takes `server_id` from the remote snapshot when the snapshot
carries one and otherwise from the processed item's `server_id`, removes the
record's Change Log entries, and increments the synced count. -/
theorem sync_conflict_remote_newer_effects (now : Int) (batch : List SyncQueueItem)
    (acc : PassAcc) (p : ProcessedItem) (item : SyncQueueItem) (localT serverTask : Task)
    (hfind : batch.find? (fun b => b.task_id == p.client_id) = some item)
    (hst : p.status = "conflict")
    (hlocal : getTask acc.db item.task_id = some localT)
    (hrd : p.resolved_data = some serverTask)
    (hnewer : localT.updated_at < serverTask.updated_at) :
    (processItem now batch acc p).synced = acc.synced + 1 ∧
    (processItem now batch acc p).failed = acc.failed ∧
    (processItem now batch acc p).errors = acc.errors ∧
    (processItem now batch acc p).db.sync_queue =
      acc.db.sync_queue.filter (fun e => !(e.task_id == localT.id)) ∧
    (∀ e ∈ (processItem now batch acc p).db.sync_queue, ¬ e.task_id = localT.id) ∧
    (∀ t ∈ acc.db.tasks, t.id = localT.id →
      { t with title := serverTask.title, description := serverTask.description,
               completed := serverTask.completed, updated_at := now,
               sync_status := "synced",
               server_id := coalesce serverTask.server_id p.server_id,
               last_synced_at := some now } ∈ (processItem now batch acc p).db.tasks) := by
  rw [processItem_conflictResolve_reduce now batch acc p item localT serverTask
    hfind hst hlocal hrd]
  have hwin : resolveConflict localT serverTask = serverTask := by
    unfold resolveConflict
    rw [if_neg (by omega)]
  refine ⟨rfl, rfl, rfl, rfl, ?_, ?_⟩
  · intro e he
    dsimp only at he
    simp only [applyConflictWinner] at he
    rw [List.mem_filter] at he
    simpa using he.2
  · intro t ht hid
    dsimp only
    simp only [applyConflictWinner, hwin]
    have hm := List.mem_map_of_mem (fun t : Task => if t.id == localT.id then
      { t with title := serverTask.title, description := serverTask.description,
               completed := serverTask.completed, updated_at := now,
               sync_status := "synced",
               server_id := coalesce serverTask.server_id p.server_id,
               last_synced_at := some now } else t) ht
    simpa [hid] using hm

theorem sync_conflict_remote_newer_effects_witness :
    (processItem 100 [c5Item] c5Acc c5P).synced = c5Acc.synced + 1 ∧
    (processItem 100 [c5Item] c5Acc c5P).failed = c5Acc.failed ∧
    (processItem 100 [c5Item] c5Acc c5P).errors = c5Acc.errors ∧
    (processItem 100 [c5Item] c5Acc c5P).db.sync_queue =
      c5Acc.db.sync_queue.filter (fun e => !(e.task_id == c5Local.id)) ∧
    (∀ e ∈ (processItem 100 [c5Item] c5Acc c5P).db.sync_queue,
      ¬ e.task_id = c5Local.id) ∧
    (∀ t ∈ c5Acc.db.tasks, t.id = c5Local.id →
      { t with title := c5Snap.title, description := c5Snap.description,
               completed := c5Snap.completed, updated_at := (100 : Int),
               sync_status := "synced",
               server_id := coalesce c5Snap.server_id c5P.server_id,
               last_synced_at := some 100 } ∈
        (processItem 100 [c5Item] c5Acc c5P).db.tasks) :=
  sync_conflict_remote_newer_effects 100 [c5Item] c5Acc c5P c5Item c5Local c5Snap
    (by decide) (by decide) (by decide) (by decide) (by decide)

def c8Item : SyncQueueItem := ⟨"q8", "t8", "update", "", 0, 0, none⟩
def c8P : ProcessedItem := ⟨"t8", none, "conflict", none, none⟩
def c8Acc : PassAcc := ⟨⟨[], [c8Item]⟩, 0, 0, []⟩

/-- Claim C8 counterexample: on a conflict outcome without a usable snapshot
the message stored on the entry is `"Conflict without resolvable data"`
(capitalized), while the error reported in the pass's `errors` list is the
bare label `"Conflict"` — not the fixed message the claim states. -/
theorem conflict_error_label_cex :
    c8P.status = "conflict" ∧
    c8P.resolved_data = none ∧
    (processItem 50 [c8Item] c8Acc c8P).errors.map (fun er => er.error) = ["Conflict"] ∧
    (processItem 50 [c8Item] c8Acc c8P).db.sync_queue.map (fun e => e.error_message) =
      [some "Conflict without resolvable data"] ∧
    ¬ "Conflict" = "conflict without resolvable data" ∧
    ¬ "Conflict" = "Conflict without resolvable data" := by
  decide

/-- Claim C8 (amended): a conflict outcome lacking a usable remote snapshot or
a matching local record is marked failed — the entry's queue row stores the
fixed message `"Conflict without resolvable data"` with `retry_count`
incremented, the pass's errors list reports the fixed label `"Conflict"` for
that record and operation, the failed count grows by one, nothing is counted
synced, and no task field other than `sync_status` is written — no winner is
guessed. -/
theorem sync_conflict_unresolvable_effects (now : Int) (batch : List SyncQueueItem)
    (acc : PassAcc) (p : ProcessedItem) (item : SyncQueueItem)
    (hfind : batch.find? (fun b => b.task_id == p.client_id) = some item)
    (hst : p.status = "conflict")
    (hmiss : getTask acc.db item.task_id = none ∨ p.resolved_data = none) :
    (processItem now batch acc p).failed = acc.failed + 1 ∧
    (processItem now batch acc p).synced = acc.synced ∧
    (processItem now batch acc p).errors =
      acc.errors ++ [⟨item.task_id, item.operation, "Conflict", now⟩] ∧
    (processItem now batch acc p).db.sync_queue = acc.db.sync_queue.map (fun e =>
      if e.id == item.id then
        { e with retry_count := item.retry_count + 1,
                 error_message := some "Conflict without resolvable data" }
      else e) ∧
    (processItem now batch acc p).db.tasks.map taskPayload =
      acc.db.tasks.map taskPayload := by
  rw [processItem_conflictFail_reduce now batch acc p item hfind hst hmiss]
  exact ⟨rfl, rfl, rfl, handleSyncError_queue now acc.db item _,
    handleSyncError_tasks_payload now acc.db item _⟩

theorem sync_conflict_unresolvable_effects_witness :
    (processItem 50 [c8Item] c8Acc c8P).failed = c8Acc.failed + 1 ∧
    (processItem 50 [c8Item] c8Acc c8P).synced = c8Acc.synced ∧
    (processItem 50 [c8Item] c8Acc c8P).errors =
      c8Acc.errors ++ [⟨c8Item.task_id, c8Item.operation, "Conflict", 50⟩] ∧
    (processItem 50 [c8Item] c8Acc c8P).db.sync_queue = c8Acc.db.sync_queue.map (fun e =>
      if e.id == c8Item.id then
        { e with retry_count := c8Item.retry_count + 1,
                 error_message := some "Conflict without resolvable data" }
      else e) ∧
    (processItem 50 [c8Item] c8Acc c8P).db.tasks.map taskPayload =
      c8Acc.db.tasks.map taskPayload :=
  sync_conflict_unresolvable_effects 50 [c8Item] c8Acc c8P c8Item
    (by decide) (by decide) (by decide)

/-- Claim C9: when every task row carrying the entry's record id is
soft-deleted, the `getTask` lookup used by the conflict branch returns
nothing, so a conflict outcome for that record is handled as a failure even
though it carries a valid `resolved_data` snapshot: the failed count grows by
one, nothing is counted synced, and the entry's queue row gets `retry_count`
incremented with the conflict failure message stored. -/
theorem sync_conflict_deleted_record_fails (now : Int) (batch : List SyncQueueItem)
    (acc : PassAcc) (p : ProcessedItem) (item : SyncQueueItem) (snap : Task)
    (hfind : batch.find? (fun b => b.task_id == p.client_id) = some item)
    (hst : p.status = "conflict")
    (_hrd : p.resolved_data = some snap)
    (hdel : ∀ t ∈ acc.db.tasks, t.id = item.task_id → t.is_deleted = true) :
    getTask acc.db item.task_id = none ∧
    (processItem now batch acc p).failed = acc.failed + 1 ∧
    (processItem now batch acc p).synced = acc.synced ∧
    (∀ e ∈ acc.db.sync_queue, e.id = item.id →
      { e with retry_count := item.retry_count + 1,
               error_message := some "Conflict without resolvable data" } ∈
        (processItem now batch acc p).db.sync_queue) := by
  have hget : getTask acc.db item.task_id = none := by
    unfold getTask
    apply List.find?_eq_none.mpr
    intro t ht
    by_cases hid : t.id = item.task_id
    · simp [hid, hdel t ht hid]
    · simp [hid]
  rw [processItem_conflictFail_reduce now batch acc p item hfind hst (Or.inl hget)]
  refine ⟨hget, rfl, rfl, ?_⟩
  intro e he heid
  dsimp only
  rw [handleSyncError_queue]
  have hm := List.mem_map_of_mem (fun e : SyncQueueItem => if e.id == item.id then
    { e with retry_count := item.retry_count + 1,
             error_message := some "Conflict without resolvable data" } else e) he
  simpa [heid] using hm

def c9Task : Task := ⟨"t9", "T", none, false, 0, 10, true, "pending", none, none⟩
def c9Snap : Task := ⟨"t9", "S", none, false, 0, 99, false, "synced", some "s9", none⟩
def c9Item : SyncQueueItem := ⟨"q9", "t9", "delete", "", 0, 0, none⟩
def c9P : ProcessedItem := ⟨"t9", some "s9", "conflict", some c9Snap, none⟩
def c9Acc : PassAcc := ⟨⟨[c9Task], [c9Item]⟩, 0, 0, []⟩

theorem sync_conflict_deleted_record_fails_witness :
    getTask c9Acc.db c9Item.task_id = none ∧
    (processItem 11 [c9Item] c9Acc c9P).failed = c9Acc.failed + 1 ∧
    (processItem 11 [c9Item] c9Acc c9P).synced = c9Acc.synced ∧
    (∀ e ∈ c9Acc.db.sync_queue, e.id = c9Item.id →
      { e with retry_count := c9Item.retry_count + 1,
               error_message := some "Conflict without resolvable data" } ∈
        (processItem 11 [c9Item] c9Acc c9P).db.sync_queue) :=
  sync_conflict_deleted_record_fails 11 [c9Item] c9Acc c9P c9Item c9Snap
    (by decide) (by decide) (by decide) (by decide)

end SyncModel
